import Mathlib

/-!
Shallow embedding of the dependency-traversal pipeline of the scorecard
repository: the package-metadata client `src/internal/packageclient/depsdev.go`
and the Binary-Artifacts check `src/checks/binary_artifact.go`.

External effects (HTTP requests, repository clients, probe execution) are
modelled by passing their outcomes explicitly: each Go function becomes a Lean
function of the responses it would receive, and a non-nil Go `error` becomes
an `Except` error value.
-/

namespace Scorecard

/-! ### Data model (`internal/packageclient/depsdev.go`) -/

/-- Go struct `VersionKey`: a fully resolved `(system, name, version)` triple. -/
structure VersionKey where
  system : String
  name : String
  version : String
deriving DecidableEq

/-- One entry of `VersionData.Links`: a labeled URL. The URL is a list of
characters because `GetURI` runs a regular-expression search over it. -/
structure Link where
  label : String
  url : List Char
deriving DecidableEq

/-- Go struct `VersionData` returned by `GetVersion`. Only `Links` (and, for
other callers, the version key and default flag) flow into the code modelled
here; the remaining JSON fields (`purl`, `publishedAt`, `licenses`,
`advisoryKeys`) are carried by no code path under verification. -/
structure VersionData where
  versionKey : VersionKey
  isDefault : Bool
  links : List Link
deriving DecidableEq

/-- Go struct `PackageKey`. -/
structure PackageKey where
  system : String
  name : String
deriving DecidableEq

/-- One entry of `PackageData.Versions`. -/
structure PackageVersion where
  versionKey : VersionKey
  purl : String
  publishedAt : String
  isDefault : Bool
deriving DecidableEq

/-- Go struct `PackageData` returned by `GetPackage`. -/
structure PackageData where
  packageKey : PackageKey
  versions : List PackageVersion
deriving DecidableEq

/-- One node of a dependency graph (anonymous struct in `PackageDependencies`):
a version key, a bundled flag, a relation tag (`"SELF"` marks the evaluated
project itself), and resolution error strings. -/
structure DependencyNode where
  versionKey : VersionKey
  bundled : Bool
  relation : String
  errors : List String
deriving DecidableEq

/-- One edge of a dependency graph. -/
structure DependencyEdge where
  fromNode : Int
  toNode : Int
  requirement : String
deriving DecidableEq

/-- Go struct `PackageDependencies` returned by `GetPackageDependencies`. -/
structure PackageDependencies where
  nodes : List DependencyNode
  edges : List DependencyEdge
  error : String
deriving DecidableEq

/-- One entry of `ProjectPackageVersions.Versions`. -/
structure ProjectVersionEntry where
  versionKey : VersionKey
  relationType : String
deriving DecidableEq

/-- Go struct `ProjectPackageVersions` returned by `GetProjectPackageVersions`. -/
structure ProjectPackageVersions where
  versions : List ProjectVersionEntry
deriving DecidableEq

/-- The error values of `depsdev.go`: `ErrDepsDevAPI` (wrapped together with the
response status by `fmt.Errorf`), `ErrProjNotFoundInDepsDev`,
`ErrPkgNotFoundInDepsDev`, and the body-read / `json.Unmarshal` failure path. -/
inductive DepsDevErr where
  | errDepsDevAPI (status : Nat)
  | errProjNotFoundInDepsDev
  | errPkgNotFoundInDepsDev
  | decodeErr
deriving DecidableEq

/-! ### HTTP response handling

Each `Get…` method of `depsDevClient` issues one GET request and post-processes
the response with the same shape: a 404 status returns the NotFound error, any
other non-200 status returns `ErrDepsDevAPI` with the status attached, and
otherwise the decoded body is returned (`none` models a body whose read or
unmarshal fails). The functions below are those post-processing pipelines,
taken as functions of the received response. -/

/-- Response handling of `GetProjectPackageVersions` (depsdev.go:150-187):
404 returns `ErrProjNotFoundInDepsDev`, other non-200 returns `ErrDepsDevAPI`. -/
def getProjectPackageVersionsResp (status : Nat) (body : Option ProjectPackageVersions) :
    Except DepsDevErr ProjectPackageVersions :=
  if status = 404 then .error .errProjNotFoundInDepsDev
  else if status ≠ 200 then .error (.errDepsDevAPI status)
  else
    match body with
    | some res => .ok res
    | none => .error .decodeErr

/-- Response handling of `GetPackage` (depsdev.go:242-276): 404 returns
`ErrPkgNotFoundInDepsDev`, other non-200 returns `ErrDepsDevAPI`. -/
def getPackageResp (status : Nat) (body : Option PackageData) :
    Except DepsDevErr PackageData :=
  if status = 404 then .error .errPkgNotFoundInDepsDev
  else if status ≠ 200 then .error (.errDepsDevAPI status)
  else
    match body with
    | some res => .ok res
    | none => .error .decodeErr

/-- Response handling of `GetVersion` (depsdev.go:278-312): 404 returns
`ErrPkgNotFoundInDepsDev`, other non-200 returns `ErrDepsDevAPI`. -/
def getVersionResp (status : Nat) (body : Option VersionData) :
    Except DepsDevErr VersionData :=
  if status = 404 then .error .errPkgNotFoundInDepsDev
  else if status ≠ 200 then .error (.errDepsDevAPI status)
  else
    match body with
    | some res => .ok res
    | none => .error .decodeErr

/-- Response handling of the dependencies request inside `GetPackageDependencies`
(depsdev.go:222-239), same 404 / non-200 / decode shape as `GetPackage`. -/
def getPackageDependenciesResp (status : Nat) (body : Option PackageDependencies) :
    Except DepsDevErr PackageDependencies :=
  if status = 404 then .error .errPkgNotFoundInDepsDev
  else if status ≠ 200 then .error (.errDepsDevAPI status)
  else
    match body with
    | some res => .ok res
    | none => .error .decodeErr

/-! ### GetPackageDependencies (depsdev.go:189-240) -/

/-- The default-version computation of `GetPackageDependencies`
(depsdev.go:199-205): `defaultVersion` starts as `Versions[0].VersionKey.Version`
— an unguarded index access, modelled as `none` when the list is empty, where
the Go program panics with an index-out-of-range fault — and the loop replaces
it with the first version whose `IsDefault` flag is set, breaking at the first
hit. -/
def chooseDefaultVersion (versions : List PackageVersion) : Option String :=
  match versions with
  | [] => none
  | v0 :: _ =>
    some
      (match versions.find? (fun ver => ver.isDefault) with
       | some ver => ver.versionKey.version
       | none => v0.versionKey.version)

/-- `GetPackageDependencies` (depsdev.go:189-240), as a function of the
`GetPackage` result it obtains first (`pkgResult`; the Go code wraps the error
message but propagates the error) and of the HTTP response `respond v` the
dependencies request for version `v` would receive. `none` models the Go
runtime panic of the unguarded `Versions[0]` access. -/
def getPackageDependencies (pkgResult : Except DepsDevErr PackageData)
    (respond : String → Nat × Option PackageDependencies) :
    Option (Except DepsDevErr PackageDependencies) :=
  match pkgResult with
  | .error e => some (.error e)
  | .ok packageInfo =>
    match chooseDefaultVersion packageInfo.versions with
    | none => none
    | some defaultVersion =>
      some (getPackageDependenciesResp (respond defaultVersion).1 (respond defaultVersion).2)

/-! ### GetURI (depsdev.go:314-333) -/

/-- Go constant `sourceRepoLabel`. -/
def sourceRepoLabel : String := "SOURCE_REPO"

/-- The character list of the literal `".git"`. -/
def dotGit : List Char := ['.', 'g', 'i', 't']

/-- The character list of the literal `"github.com/"`. -/
def githubCoord : List Char := ['g', 'i', 't', 'h', 'u', 'b', '.', 'c', 'o', 'm', '/']

/-- The character list of the literal `"https://github.com/"`. -/
def httpsGithub : List Char :=
  ['h', 't', 't', 'p', 's', ':', '/', '/', 'g', 'i', 't', 'h', 'u', 'b', '.', 'c', 'o', 'm', '/']

/-- Go `strings.TrimSuffix s suffix`: removes one trailing occurrence of
`suffix` when present, otherwise returns `s` unchanged. -/
def trimSuffix (s suffix : List Char) : List Char :=
  if suffix.isSuffixOf s then s.take (s.length - suffix.length) else s

/-- Whether the Go regular expression `"github.com/.*"` matches at the head of
the list: the pattern is the literal characters `github`, one arbitrary
non-newline character (the unescaped `.` of the pattern), then `com/`. -/
def coreMatch (s : List Char) : Bool :=
  match s with
  | c0 :: c1 :: c2 :: c3 :: c4 :: c5 :: c6 :: c7 :: c8 :: c9 :: c10 :: _ =>
    c0 == 'g' && (c1 == 'i' && (c2 == 't' && (c3 == 'h' && (c4 == 'u' && (c5 == 'b' &&
      (!(c6 == '\n') && (c7 == 'c' && (c8 == 'o' && (c9 == 'm' && c10 == '/')))))))))
  | _ => false

/-- `regexp.FindString` for the pattern `"github.com/.*"`: the match at the
leftmost position where the core pattern matches, extended greedily by `.*`
(every following character up to the next newline or the end of the string);
`none` when the pattern matches nowhere. -/
def githubFind : List Char → Option (List Char)
  | [] => none
  | c :: rest =>
    if coreMatch (c :: rest) then some ((c :: rest).takeWhile (fun ch => ch != '\n'))
    else githubFind rest

/-- `githubDomain.FindString` (depsdev.go:36,325): Go's `FindString` returns the
empty string when there is no match. -/
def githubFindString (s : List Char) : List Char :=
  (githubFind s).getD []

/-- The link-scanning loop of `GetURI` (depsdev.go:321-328): starting from
`trimmedURL := ""`, the first link labeled `SOURCE_REPO` sets `trimmedURL` to
the `githubDomain` match of its `".git"`-trimmed URL, and the loop breaks. -/
def scanLinks : List Link → List Char
  | [] => []
  | link :: rest =>
    if link.label = sourceRepoLabel then githubFindString (trimSuffix link.url dotGit)
    else scanLinks rest

/-- `GetURI` (depsdev.go:314-333), as a function of the `GetVersion` result it
obtains first: a lookup failure fails; otherwise the `Links` scan runs and an
empty `trimmedURL` — no `SOURCE_REPO` label, or no `githubDomain` match in the
labeled URL — fails. `Except Unit` carries only whether the Go error was nil. -/
def getURI (versionResult : Except DepsDevErr VersionData) : Except Unit (List Char) :=
  match versionResult with
  | .error _ => .error ()
  | .ok versionInfo =>
    let trimmedURL := scanLinks versionInfo.links
    if trimmedURL = [] then .error () else .ok trimmedURL

/-! ### The Binary-Artifacts check (`checks/binary_artifact.go`)

The check's collaborators — `raw.BinaryArtifacts`, `checker.GetClients`,
`zrunner.Run`, `evaluation.BinaryArtifacts`, and the methods of
`c.ProjectClient` — are packages the check calls into; the control flow of
`binary_artifact.go` is modelled as a function of their outcomes, collected in
a `CheckEnv`. -/

/-- Go constant `CheckBinaryArtifacts` (binary_artifact.go:29). -/
def CheckBinaryArtifacts : String := "Binary-Artifacts"

/-- Go constant `selfLabel` (binary_artifact.go:30). -/
def selfLabel : String := "SELF"

/-- Probe outcome values (package `finding`): Positive, Negative,
NotApplicable, Error. -/
inductive Outcome where
  | positive
  | negative
  | notApplicable
  | err
deriving DecidableEq

/-- One probe finding: probe identifier, outcome, human-readable message. -/
structure Finding where
  probe : String
  outcome : Outcome
  message : String
deriving DecidableEq

/-- The result of one check: `CreateRuntimeErrorResult`,
`CreateInconclusiveResult` with its reason, or an evaluated score. -/
inductive ResultOutcome where
  | runtimeError
  | inconclusive (reason : String)
  | score (n : Int)
deriving DecidableEq

/-- Go `checker.CheckResult` as far as the claims consult it: check name,
outcome, and the findings attached by `ret.Findings = findings`
(empty on the error and inconclusive paths). -/
structure CheckResult where
  name : String
  outcome : ResultOutcome
  findings : List Finding
deriving DecidableEq

/-- Stand-in for a `clients.Repo` value produced by `checker.GetClients`. -/
abbrev RepoT := Nat

/-- Stand-in for a `clients.RepoClient` value. -/
abbrev ClientT := Nat

/-- Stand-in for one entry of `checker.BinaryArtifactData.Files`. -/
abbrev BinFile := String

/-- The collaborators of `BinaryArtifacts` and `BinaryArtifactsDependencies`,
each field giving the outcome of one external call made by
`checks/binary_artifact.go` (`.error ()` stands for a non-nil Go error):
`packageName`/`system` are `c.ProjectClient.GetPackageName()`/`GetSystem()`;
`getPackageDeps` is `c.ProjectClient.GetPackageDependencies(c.Ctx)`; `getURI`
is `c.ProjectClient.GetURI(c.Ctx, name, version, system)` on a node's version
key; `repoClient` is the product of
`c.ProjectClient.CreateGithubRepoClient(c.Ctx, logger)`, whose arguments do not
vary between loop iterations; `getClients` is
`checker.GetClients(c.Ctx, depURI, …)`; `initRepo` is
`repoClient.InitRepo(repo, clients.HeadSHA, 0)`; `rawDep` is
`raw.BinaryArtifacts(&dc)` against a dependency's clients and `rawSelf` is
`raw.BinaryArtifacts(c)` against the primary repository; `zrun` is
`zrunner.Run(pRawResults, probes.BinaryArtifacts)` on the accumulated files;
`evaluate` is `evaluation.BinaryArtifacts(CheckBinaryArtifacts, findings,
c.Dlogger)`. -/
structure CheckEnv where
  packageName : String
  system : String
  getPackageDeps : Except Unit PackageDependencies
  getURI : VersionKey → Except Unit String
  repoClient : ClientT
  getClients : String → Except Unit RepoT
  initRepo : ClientT → RepoT → Except Unit Unit
  rawDep : ClientT → RepoT → Except Unit (List BinFile)
  rawSelf : Except Unit (List BinFile)
  zrun : List BinFile → Except Unit (List Finding)
  evaluate : List Finding → ResultOutcome

/-- `BinaryArtifacts` (binary_artifact.go:45-68): the self check. Collect the
raw data of the primary repository, run the probes over it, evaluate; a failure
of either step returns `CreateRuntimeErrorResult`. -/
def binaryArtifacts (env : CheckEnv) : CheckResult :=
  match env.rawSelf with
  | .error _ => ⟨CheckBinaryArtifacts, .runtimeError, []⟩
  | .ok rawData =>
    match env.zrun rawData with
    | .error _ => ⟨CheckBinaryArtifacts, .runtimeError, []⟩
    | .ok findings => ⟨CheckBinaryArtifacts, env.evaluate findings, findings⟩

/-- The dependency loop of `BinaryArtifactsDependencies`
(binary_artifact.go:91-126). It accumulates the raw binary-artifact files of
each dependency (`rawData.Files = append(rawData.Files, depRawData.Files...)`)
together with the skip counter `numSkipped`; a node tagged `selfLabel` is
passed over; a `GetURI` failure increments `numSkipped` and continues; `.error
()` is the path that returns `CreateRuntimeErrorResult` from inside the loop
(`checker.GetClients`, `InitRepo`, or `raw.BinaryArtifacts` failing). -/
def depLoop (env : CheckEnv) : List DependencyNode → Except Unit (List BinFile × Nat)
  | [] => .ok ([], 0)
  | dep :: rest =>
    if dep.relation = selfLabel then depLoop env rest
    else
      match env.getURI dep.versionKey with
      | .error _ =>
        match depLoop env rest with
        | .error e => .error e
        | .ok (files, numSkipped) => .ok (files, numSkipped + 1)
      | .ok depURI =>
        match env.getClients depURI with
        | .error _ => .error ()
        | .ok repo =>
          match env.initRepo env.repoClient repo with
          | .error _ => .error ()
          | .ok _ =>
            match env.rawDep env.repoClient repo with
            | .error _ => .error ()
            | .ok depFiles =>
              match depLoop env rest with
              | .error e => .error e
              | .ok (files, numSkipped) => .ok (depFiles ++ files, numSkipped)

/-- `BinaryArtifactsDependencies` (binary_artifact.go:71-142): an empty package
name or system returns `CreateInconclusiveResult`; a `GetPackageDependencies`
failure returns `CreateRuntimeErrorResult`; otherwise the dependency loop runs,
the accumulated files are evaluated by the probe runner and the evaluation, and
runner failure returns `CreateRuntimeErrorResult`. -/
def binaryArtifactsDependencies (env : CheckEnv) : CheckResult :=
  if env.packageName = "" ∨ env.system = "" then
    ⟨CheckBinaryArtifacts, .inconclusive "Couldn't find package name", []⟩
  else
    match env.getPackageDeps with
    | .error _ => ⟨CheckBinaryArtifacts, .runtimeError, []⟩
    | .ok dependencies =>
      match depLoop env dependencies.nodes with
      | .error _ => ⟨CheckBinaryArtifacts, .runtimeError, []⟩
      | .ok (files, _) =>
        match env.zrun files with
        | .error _ => ⟨CheckBinaryArtifacts, .runtimeError, []⟩
        | .ok findings => ⟨CheckBinaryArtifacts, env.evaluate findings, findings⟩

/-- Modelled from the spec: the probe set `probes.BinaryArtifacts` and the
runner `zrunner.Run` are not under `src/` (only their callers are). Following
§4.1 and §8 scenarios A and B, the probe layer emits one Negative finding per
reported binary-artifact file and a single Positive finding when no file
matches. -/
def zrunModel (files : List BinFile) : Except Unit (List Finding) :=
  .ok
    (if files = [] then [⟨"hasBinaryArtifacts", .positive, "no binaries found"⟩]
     else files.map (fun f => ⟨"hasBinaryArtifacts", .negative, f⟩))

/-- Modelled from the spec: `evaluation.BinaryArtifacts` is not under `src/`.
Following §4.2: an empty finding set is inconclusive; an Error outcome aborts
with a runtime-error result; all-Positive scores the maximum 10; each Negative
finding reduces the score from the maximum, floored at 0, with per-finding
penalty 1 (matching the unit test `TestBinaryArtifacts`, where two jar files
score 8). -/
def evaluateModel (findings : List Finding) : ResultOutcome :=
  if findings = [] then .inconclusive "no findings"
  else if findings.any (fun f => f.outcome == Outcome.err) then .runtimeError
  else .score (max 0 (10 - ((findings.filter (fun f => f.outcome == Outcome.negative)).length : Int)))

deriving instance DecidableEq for Except

/-! ### Helper lemmas -/

/-- Trimming a suffix that is there by construction removes exactly it. -/
theorem trimSuffix_append (x s : List Char) : trimSuffix (x ++ s) s = x := by
  unfold trimSuffix
  rw [if_pos (List.isSuffixOf_iff_suffix.mpr (List.suffix_append x s)),
    List.length_append, Nat.add_sub_cancel, List.take_left]

/-- The link scan stops at the first `SOURCE_REPO`-labeled link and reports the
`githubDomain` match of its trimmed URL. -/
theorem scanLinks_eq_of_first (pre : List Link) (entry : Link) (rest : List Link)
    (hpre : ∀ l ∈ pre, l.label ≠ sourceRepoLabel) (he : entry.label = sourceRepoLabel) :
    scanLinks (pre ++ entry :: rest) = githubFindString (trimSuffix entry.url dotGit) := by
  induction pre with
  | nil => simp [scanLinks, he]
  | cons a pre ih =>
    have ha : a.label ≠ sourceRepoLabel := hpre a (by simp)
    simp only [List.cons_append, scanLinks, if_neg ha]
    exact ih fun l hl => hpre l (by simp [hl])

/-- With no `SOURCE_REPO`-labeled link the scan leaves `trimmedURL` empty. -/
theorem scanLinks_eq_nil (links : List Link)
    (h : ∀ l ∈ links, l.label ≠ sourceRepoLabel) : scanLinks links = [] := by
  induction links with
  | nil => rfl
  | cons a rest ih =>
    simp only [scanLinks, if_neg (h a (by simp))]
    exact ih fun l hl => h l (by simp [hl])

/-- Every non-empty scan result is the `githubDomain` match of some link. -/
theorem scanLinks_cases (links : List Link) :
    scanLinks links = [] ∨
      ∃ link : Link, scanLinks links = githubFindString (trimSuffix link.url dotGit) := by
  induction links with
  | nil => exact Or.inl rfl
  | cons a rest ih =>
    by_cases ha : a.label = sourceRepoLabel
    · exact Or.inr ⟨a, by simp [scanLinks, ha]⟩
    · simpa only [scanLinks, if_neg ha] using ih

/-- A failed single-position match makes the scan move one character right. -/
theorem githubFind_cons_of_false {c : Char} {l : List Char}
    (h : coreMatch (c :: l) = false) : githubFind (c :: l) = githubFind l := by
  simp [githubFind, h]

/-- A successful single-position match makes the scan return the greedy match. -/
theorem githubFind_cons_of_true {c : Char} {l : List Char}
    (h : coreMatch (c :: l) = true) :
    githubFind (c :: l) = some ((c :: l).takeWhile (fun ch => ch != '\n')) := by
  simp [githubFind, h]

/-- The greedy `.*` extension preserves the core match at the head. -/
theorem coreMatch_takeWhile {s : List Char} (h : coreMatch s = true) :
    coreMatch (s.takeWhile (fun ch => ch != '\n')) = true := by
  rcases s with _ | ⟨c0, s⟩; · simp [coreMatch] at h
  rcases s with _ | ⟨c1, s⟩; · simp [coreMatch] at h
  rcases s with _ | ⟨c2, s⟩; · simp [coreMatch] at h
  rcases s with _ | ⟨c3, s⟩; · simp [coreMatch] at h
  rcases s with _ | ⟨c4, s⟩; · simp [coreMatch] at h
  rcases s with _ | ⟨c5, s⟩; · simp [coreMatch] at h
  rcases s with _ | ⟨c6, s⟩; · simp [coreMatch] at h
  rcases s with _ | ⟨c7, s⟩; · simp [coreMatch] at h
  rcases s with _ | ⟨c8, s⟩; · simp [coreMatch] at h
  rcases s with _ | ⟨c9, s⟩; · simp [coreMatch] at h
  rcases s with _ | ⟨c10, s⟩; · simp [coreMatch] at h
  simp only [coreMatch, Bool.and_eq_true, beq_iff_eq, Bool.not_eq_true'] at h
  obtain ⟨rfl, rfl, rfl, rfl, rfl, rfl, h6, rfl, rfl, rfl, rfl⟩ := h
  simp only [List.takeWhile_cons]
  rw [if_pos (by decide), if_pos (by decide), if_pos (by decide), if_pos (by decide),
    if_pos (by decide), if_pos (by decide), if_pos (by simp [bne, h6]),
    if_pos (by decide), if_pos (by decide), if_pos (by decide), if_pos (by decide)]
  simp [coreMatch, h6]

/-- Every string `githubFind` returns starts with a core pattern match. -/
theorem githubFind_sound : ∀ {s r : List Char}, githubFind s = some r → coreMatch r = true := by
  intro s
  induction s with
  | nil => intro r h; simp [githubFind] at h
  | cons c l ih =>
    intro r h
    by_cases hm : coreMatch (c :: l) = true
    · rw [githubFind_cons_of_true hm] at h
      exact Option.some.inj h ▸ coreMatch_takeWhile hm
    · rw [githubFind_cons_of_false (Bool.eq_false_iff.mpr hm)] at h
      exact ih h

/-- On a URL of the shape `https://github.com/OWNER/REPO` (no newlines in
`OWNER`, `REPO`), the pattern first matches at the `github.com/` after the
scheme and the greedy `.*` takes everything to the end, so `FindString` strips
exactly the scheme. -/
theorem githubFindString_https (owner repo : List Char)
    (how : ('\n' : Char) ∉ owner) (hre : ('\n' : Char) ∉ repo) :
    githubFindString (httpsGithub ++ (owner ++ '/' :: repo)) =
      githubCoord ++ (owner ++ '/' :: repo) := by
  have hall : ∀ x ∈ owner ++ '/' :: repo, (x != '\n') = true := by
    intro x hx
    rcases List.mem_append.mp hx with h2 | h2
    · exact bne_iff_ne.mpr fun hh => how (hh ▸ h2)
    · rcases List.mem_cons.mp h2 with rfl | h3
      · decide
      · exact bne_iff_ne.mpr fun hh => hre (hh ▸ h3)
  have htw : (owner ++ '/' :: repo).takeWhile (fun ch => ch != '\n') = owner ++ '/' :: repo :=
    List.takeWhile_eq_self_iff.mpr hall
  unfold githubFindString
  simp [httpsGithub, githubCoord, githubFind, coreMatch, htw]

/-! ### Claim theorems: package metadata client -/

/-- C5: for version metadata whose `SOURCE_REPO` link (the first such link,
preceded only by links with other labels) has URL
`https://github.com/OWNER/REPO.git`, `GetURI` returns `github.com/OWNER/REPO`:
the `".git"` suffix is stripped and the leading scheme removed, so the
owner/repo pair round-trips. -/
theorem getURI_roundtrip (vk : VersionKey) (d : Bool) (pre rest : List Link)
    (owner repo : List Char)
    (hpre : ∀ l ∈ pre, l.label ≠ sourceRepoLabel)
    (how : ('\n' : Char) ∉ owner) (hre : ('\n' : Char) ∉ repo) :
    getURI (.ok ⟨vk, d,
        pre ++ ⟨sourceRepoLabel, (httpsGithub ++ (owner ++ '/' :: repo)) ++ dotGit⟩ :: rest⟩) =
      .ok (githubCoord ++ (owner ++ '/' :: repo)) := by
  have hscan :
      scanLinks (pre ++ ⟨sourceRepoLabel, (httpsGithub ++ (owner ++ '/' :: repo)) ++ dotGit⟩ :: rest) =
        githubCoord ++ (owner ++ '/' :: repo) := by
    rw [scanLinks_eq_of_first pre _ rest hpre rfl]
    rw [trimSuffix_append, githubFindString_https owner repo how hre]
  simp only [getURI, hscan]
  rw [if_neg (by simp [githubCoord])]

/-- Witness for C5 at `OWNER = ossf`, `REPO = scorecard`. -/
theorem getURI_roundtrip_witness :
    (∀ l ∈ ([] : List Link), l.label ≠ sourceRepoLabel) ∧
    ('\n' : Char) ∉ "ossf".toList ∧ ('\n' : Char) ∉ "scorecard".toList ∧
    getURI (.ok ⟨⟨"GO", "github.com/ossf/scorecard", "v1.2.0"⟩, false,
        [] ++ ⟨sourceRepoLabel,
          (httpsGithub ++ ("ossf".toList ++ '/' :: "scorecard".toList)) ++ dotGit⟩ :: []⟩) =
      .ok (githubCoord ++ ("ossf".toList ++ '/' :: "scorecard".toList)) :=
  ⟨by simp, by decide, by decide,
    getURI_roundtrip _ false [] [] _ _ (by simp) (by decide) (by decide)⟩

/-- C6 counterexample: a `SOURCE_REPO` link on the unsupported domain
`githubxcom` is accepted — the unescaped `.` of the pattern `github.com/.*`
matches the `x` — so `GetURI` returns a coordinate that is not on `github.com`,
refuting the claim that a coordinate on an unsupported domain is never
returned. -/
theorem getURI_unsupported_domain_cex :
    getURI (.ok ⟨⟨"GO", "p", "v1"⟩, false,
        [⟨"SOURCE_REPO", "https://githubxcom/foo".toList⟩]⟩) =
      .ok ("githubxcom/foo".toList) ∧
    ("githubxcom/foo".toList).take 11 ≠ githubCoord := by
  exact ⟨by decide, by decide⟩

/-- C6 amended: `GetURI` fails when no link is labeled `SOURCE_REPO`, and fails
when the first `SOURCE_REPO`-labeled link's URL (after `".git"` trimming)
contains no match of the pattern `github⟨any⟩com/` — in particular for
`golang.org/x/crypto`; every coordinate it does return begins with a match of
that pattern, which does not confine it to the `github.com` domain. -/
theorem getURI_domain_handling :
    (∀ (vk : VersionKey) (d : Bool) (links : List Link),
       (∀ l ∈ links, l.label ≠ sourceRepoLabel) →
       getURI (.ok ⟨vk, d, links⟩) = .error ()) ∧
    (∀ (vk : VersionKey) (d : Bool) (pre : List Link) (entry : Link) (rest : List Link),
       (∀ l ∈ pre, l.label ≠ sourceRepoLabel) → entry.label = sourceRepoLabel →
       githubFindString (trimSuffix entry.url dotGit) = [] →
       getURI (.ok ⟨vk, d, pre ++ entry :: rest⟩) = .error ()) ∧
    (∀ (vr : Except DepsDevErr VersionData) (r : List Char),
       getURI vr = .ok r → coreMatch r = true) := by
  refine ⟨?_, ?_, ?_⟩
  · intro vk d links h
    simp [getURI, scanLinks_eq_nil links h]
  · intro vk d pre entry rest hpre he hnomatch
    simp [getURI, scanLinks_eq_of_first pre entry rest hpre he, hnomatch]
  · intro vr r h
    rcases vr with e | v
    · simp [getURI] at h
    · simp only [getURI] at h
      by_cases hz : scanLinks v.links = []
      · rw [if_pos hz] at h; exact absurd h (by simp)
      · rw [if_neg hz] at h
        obtain rfl : scanLinks v.links = r := Except.ok.inj h
        rcases scanLinks_cases v.links with hc | ⟨link, hc⟩
        · exact absurd hc hz
        · rw [hc] at hz ⊢
          unfold githubFindString at hz ⊢
          rcases hf : githubFind (trimSuffix link.url dotGit) with _ | t
          · rw [hf] at hz; simp at hz
          · exact githubFind_sound hf

/-- Witness for C6's amended theorem: the no-label case, the
`golang.org/x/crypto` case (with a later github link present), and the
pattern-shape of a returned coordinate. -/
theorem getURI_domain_handling_witness :
    getURI (.ok ⟨⟨"GO", "p", "v1"⟩, false, [⟨"HOMEPAGE", "https://x.dev".toList⟩]⟩) = .error () ∧
    getURI (.ok ⟨⟨"GO", "golang.org/x/crypto", "v0.24.0"⟩, false,
        [] ++ (⟨"SOURCE_REPO", "golang.org/x/crypto".toList⟩ : Link) ::
          [⟨"SOURCE_REPO", "https://github.com/golang/crypto".toList⟩]⟩) = .error () ∧
    coreMatch ("github.com/ossf/scorecard".toList) = true :=
  ⟨getURI_domain_handling.1 _ false _ (by decide),
   getURI_domain_handling.2.1 _ false [] _ _ (by simp) rfl (by decide),
   getURI_domain_handling.2.2 (.ok ⟨⟨"GO", "p", "v1"⟩, false,
      [⟨"SOURCE_REPO", "https://github.com/ossf/scorecard.git".toList⟩]⟩) _ (by decide)⟩

/-- C10: the `Links` scan of `GetURI` breaks at the first `SOURCE_REPO` match:
when the first `SOURCE_REPO`-labeled link's URL has no `githubDomain` match
(the unsupported-domain condition as the code tests it), `GetURI` fails no
matter what later links — including `SOURCE_REPO` links on `github.com` —
follow it. -/
theorem getURI_stops_at_first_source_repo (vk : VersionKey) (d : Bool)
    (pre : List Link) (entry : Link) (rest : List Link)
    (hpre : ∀ l ∈ pre, l.label ≠ sourceRepoLabel)
    (he : entry.label = sourceRepoLabel)
    (hnomatch : githubFindString (trimSuffix entry.url dotGit) = []) :
    getURI (.ok ⟨vk, d, pre ++ entry :: rest⟩) = .error () := by
  simp [getURI, scanLinks_eq_of_first pre entry rest hpre he, hnomatch]

/-- Witness for C10: first `SOURCE_REPO` link on `golang.org`, second on
`github.com`; the result is still an error. -/
theorem getURI_stops_at_first_source_repo_witness :
    githubFindString (trimSuffix "golang.org/x/crypto".toList dotGit) = [] ∧
    getURI (.ok ⟨⟨"GO", "golang.org/x/crypto", "v0.24.0"⟩, false,
        [] ++ (⟨"SOURCE_REPO", "golang.org/x/crypto".toList⟩ : Link) ::
          [⟨"SOURCE_REPO", "https://github.com/golang/crypto.git".toList⟩]⟩) = .error () :=
  ⟨by decide,
   getURI_stops_at_first_source_repo _ false [] _ _ (by simp) rfl (by decide)⟩

/-- C7: for each of `GetProjectPackageVersions`, `GetPackage`, `GetVersion`, a
404 response maps to the dedicated NotFound error and every other non-200
response maps to `ErrDepsDevAPI`, and the two conditions are distinguishable. -/
theorem depsdev_status_mapping (status : Nat) (h : status ≠ 200)
    (b1 : Option ProjectPackageVersions) (b2 : Option PackageData) (b3 : Option VersionData) :
    getProjectPackageVersionsResp status b1 =
      .error (if status = 404 then .errProjNotFoundInDepsDev else .errDepsDevAPI status) ∧
    getPackageResp status b2 =
      .error (if status = 404 then .errPkgNotFoundInDepsDev else .errDepsDevAPI status) ∧
    getVersionResp status b3 =
      .error (if status = 404 then .errPkgNotFoundInDepsDev else .errDepsDevAPI status) ∧
    (∀ s : Nat, DepsDevErr.errProjNotFoundInDepsDev ≠ DepsDevErr.errDepsDevAPI s) ∧
    (∀ s : Nat, DepsDevErr.errPkgNotFoundInDepsDev ≠ DepsDevErr.errDepsDevAPI s) := by
  refine ⟨?_, ?_, ?_, fun s => by simp, fun s => by simp⟩ <;>
    by_cases h404 : status = 404 <;>
      simp [getProjectPackageVersionsResp, getPackageResp, getVersionResp, h404, h]

/-- Witness for C7 at status 500 (and, through the if, at 404). -/
theorem depsdev_status_mapping_witness :
    getProjectPackageVersionsResp 500 none =
      .error (if 500 = 404 then .errProjNotFoundInDepsDev else .errDepsDevAPI 500) ∧
    getPackageResp 500 none =
      .error (if 500 = 404 then .errPkgNotFoundInDepsDev else .errDepsDevAPI 500) ∧
    getVersionResp 500 none =
      .error (if 500 = 404 then .errPkgNotFoundInDepsDev else .errDepsDevAPI 500) ∧
    (∀ s : Nat, DepsDevErr.errProjNotFoundInDepsDev ≠ DepsDevErr.errDepsDevAPI s) ∧
    (∀ s : Nat, DepsDevErr.errPkgNotFoundInDepsDev ≠ DepsDevErr.errDepsDevAPI s) :=
  depsdev_status_mapping 500 (by decide) none none none

/-- C8: `GetPackageDependencies` resolves the version to query via
`GetPackage`: on a `GetPackage` failure it fails with that error for every
possible dependencies-request behavior (so without consulting the request);
otherwise the version handed to the dependencies request is the first version
whose `IsDefault` flag is set when one exists, and the first listed version
when none does. -/
theorem getPackageDependencies_default_version :
    (∀ (e : DepsDevErr) (respond : String → Nat × Option PackageDependencies),
       getPackageDependencies (.error e) respond = some (.error e)) ∧
    (∀ (pkg : PackageData) (respond : String → Nat × Option PackageDependencies)
       (vd : PackageVersion),
       pkg.versions.find? (fun v => v.isDefault) = some vd →
       getPackageDependencies (.ok pkg) respond =
         some (getPackageDependenciesResp (respond vd.versionKey.version).1
           (respond vd.versionKey.version).2)) ∧
    (∀ (pkg : PackageData) (respond : String → Nat × Option PackageDependencies)
       (v0 : PackageVersion) (vrest : List PackageVersion),
       pkg.versions = v0 :: vrest →
       pkg.versions.find? (fun v => v.isDefault) = none →
       getPackageDependencies (.ok pkg) respond =
         some (getPackageDependenciesResp (respond v0.versionKey.version).1
           (respond v0.versionKey.version).2)) := by
  refine ⟨fun e respond => rfl, ?_, ?_⟩
  · intro pkg respond vd hfind
    rcases hv : pkg.versions with _ | ⟨v0, vrest⟩
    · rw [hv] at hfind; simp at hfind
    · have hfind' : (v0 :: vrest).find? (fun v => v.isDefault) = some vd := hv ▸ hfind
      simp [getPackageDependencies, chooseDefaultVersion, hv, hfind']
  · intro pkg respond v0 vrest hv hfind
    have hfind' : (v0 :: vrest).find? (fun v => v.isDefault) = none := hv ▸ hfind
    simp [getPackageDependencies, chooseDefaultVersion, hv, hfind']

/-- Witness for C8: a two-version package whose second version is the default,
and a two-version package with no default flag. -/
theorem getPackageDependencies_default_version_witness :
    getPackageDependencies (.error .errPkgNotFoundInDepsDev) (fun _ => (200, none)) =
      some (.error .errPkgNotFoundInDepsDev) ∧
    getPackageDependencies
        (.ok ⟨⟨"GO", "p"⟩, [⟨⟨"GO", "p", "v1"⟩, "", "", false⟩, ⟨⟨"GO", "p", "v2"⟩, "", "", true⟩]⟩)
        (fun v => (200, some ⟨[], [], v⟩)) =
      some (getPackageDependenciesResp
        ((fun v => ((200 : Nat), some (⟨[], [], v⟩ : PackageDependencies))) "v2").1
        ((fun v => ((200 : Nat), some (⟨[], [], v⟩ : PackageDependencies))) "v2").2) ∧
    getPackageDependencies
        (.ok ⟨⟨"GO", "p"⟩, [⟨⟨"GO", "p", "v1"⟩, "", "", false⟩, ⟨⟨"GO", "p", "v3"⟩, "", "", false⟩]⟩)
        (fun v => (200, some ⟨[], [], v⟩)) =
      some (getPackageDependenciesResp
        ((fun v => ((200 : Nat), some (⟨[], [], v⟩ : PackageDependencies))) "v1").1
        ((fun v => ((200 : Nat), some (⟨[], [], v⟩ : PackageDependencies))) "v1").2) :=
  ⟨getPackageDependencies_default_version.1 .errPkgNotFoundInDepsDev _,
   getPackageDependencies_default_version.2.1 _ _ ⟨⟨"GO", "p", "v2"⟩, "", "", true⟩ (by decide),
   getPackageDependencies_default_version.2.2 _ _ ⟨⟨"GO", "p", "v1"⟩, "", "", false⟩
     [⟨⟨"GO", "p", "v3"⟩, "", "", false⟩] rfl (by decide)⟩

/-- C9: with an empty `Versions` list in the `GetPackage` response, the
unguarded `Versions[0]` access of `GetPackageDependencies` faults (modelled as
`none`); with at least one version, no fault is possible. -/
theorem getPackageDependencies_index_fault :
    (∀ respond : String → Nat × Option PackageDependencies,
       getPackageDependencies (.ok ⟨⟨"GO", "p"⟩, []⟩) respond = none) ∧
    (∀ (pkg : PackageData) (respond : String → Nat × Option PackageDependencies),
       pkg.versions ≠ [] → (getPackageDependencies (.ok pkg) respond).isSome = true) := by
  refine ⟨fun respond => rfl, ?_⟩
  intro pkg respond hne
  rcases hv : pkg.versions with _ | ⟨v0, vrest⟩
  · exact absurd hv hne
  · simp [getPackageDependencies, chooseDefaultVersion, hv]

/-- Witness for C9: faulting empty-versions package, non-faulting one-version
package. -/
theorem getPackageDependencies_index_fault_witness :
    getPackageDependencies (.ok ⟨⟨"GO", "p"⟩, []⟩) (fun _ => (200, none)) = none ∧
    (getPackageDependencies (.ok ⟨⟨"GO", "p"⟩, [⟨⟨"GO", "p", "v1"⟩, "", "", true⟩]⟩)
      (fun _ => (200, none))).isSome = true :=
  ⟨getPackageDependencies_index_fault.1 _,
   getPackageDependencies_index_fault.2 ⟨⟨"GO", "p"⟩, [⟨⟨"GO", "p", "v1"⟩, "", "", true⟩]⟩ _
     (by decide)⟩

/-! ### Claim theorems: Binary-Artifacts check

Concrete environments used by the counterexamples and witnesses. -/

/-- A dependency node with an ordinary (non-SELF) relation tag. -/
def depNodeA : DependencyNode := ⟨⟨"GO", "dep", "v1"⟩, false, "DIRECT", []⟩

/-- An environment in which everything succeeds: one dependency whose
repository reports one binary-artifact file, and a primary repository that
reports none; probes and evaluation follow the spec-modelled
`zrunModel`/`evaluateModel`. -/
def envC2 : CheckEnv :=
  { packageName := "pkg", system := "GO",
    getPackageDeps := .ok ⟨[depNodeA], [], ""⟩,
    getURI := fun _ => .ok "github.com/x/y",
    repoClient := 0,
    getClients := fun _ => .ok 0,
    initRepo := fun _ _ => .ok (),
    rawDep := fun _ _ => .ok ["a.jar"],
    rawSelf := .ok [],
    zrun := zrunModel,
    evaluate := evaluateModel }

/-- `envC2` with a dependency whose source URI does not resolve. -/
def envURIFail : CheckEnv := { envC2 with getURI := fun _ => .error () }

/-- `envC2` with `checker.GetClients` failing for the dependency. -/
def envClientsFail : CheckEnv := { envC2 with getClients := fun _ => .error () }

/-- `envC2` with `InitRepo` failing for the dependency. -/
def envInitFail : CheckEnv := { envC2 with initRepo := fun _ _ => .error () }

/-- `envC2` with `raw.BinaryArtifacts` failing for the dependency. -/
def envRawFail : CheckEnv := { envC2 with rawDep := fun _ _ => .error () }

/-- `envC2` with no package name available. -/
def envNoName : CheckEnv := { envC2 with packageName := "" }

/-- `envC2` with `GetPackageDependencies` failing. -/
def envDepsFail : CheckEnv := { envC2 with getPackageDeps := .error () }

/-- C1 counterexample: a dependency whose `InitRepo` fails makes the whole
check return `CreateRuntimeErrorResult` instead of being skipped and counted,
refuting the claim that client-initialization and probe failures on a
dependency are never fatal. -/
theorem dep_failure_fatal_cex :
    envInitFail.initRepo envInitFail.repoClient 0 = .error () ∧
    binaryArtifactsDependencies envInitFail = ⟨CheckBinaryArtifacts, .runtimeError, []⟩ :=
  ⟨by decide, by decide⟩

/-- C1 amended: only a source-URI resolution (`GetURI`) failure is skipped and
counted; a failure of `checker.GetClients`, of `InitRepo`, or of the
dependency's raw-data collection aborts the loop, and an aborted loop makes the
check return `CreateRuntimeErrorResult`. -/
theorem dep_failure_handling :
    (∀ (env : CheckEnv) (dep : DependencyNode) (rest : List DependencyNode),
       dep.relation ≠ selfLabel → env.getURI dep.versionKey = .error () →
       depLoop env (dep :: rest) =
         (depLoop env rest).map (fun p => (p.1, p.2 + 1))) ∧
    (∀ (env : CheckEnv) (dep : DependencyNode) (rest : List DependencyNode) (uri : String),
       dep.relation ≠ selfLabel → env.getURI dep.versionKey = .ok uri →
       env.getClients uri = .error () →
       depLoop env (dep :: rest) = .error ()) ∧
    (∀ (env : CheckEnv) (dep : DependencyNode) (rest : List DependencyNode)
       (uri : String) (repo : RepoT),
       dep.relation ≠ selfLabel → env.getURI dep.versionKey = .ok uri →
       env.getClients uri = .ok repo → env.initRepo env.repoClient repo = .error () →
       depLoop env (dep :: rest) = .error ()) ∧
    (∀ (env : CheckEnv) (dep : DependencyNode) (rest : List DependencyNode)
       (uri : String) (repo : RepoT),
       dep.relation ≠ selfLabel → env.getURI dep.versionKey = .ok uri →
       env.getClients uri = .ok repo → env.initRepo env.repoClient repo = .ok () →
       env.rawDep env.repoClient repo = .error () →
       depLoop env (dep :: rest) = .error ()) ∧
    (∀ (env : CheckEnv) (deps : PackageDependencies),
       env.packageName ≠ "" → env.system ≠ "" → env.getPackageDeps = .ok deps →
       depLoop env deps.nodes = .error () →
       binaryArtifactsDependencies env = ⟨CheckBinaryArtifacts, .runtimeError, []⟩) := by
  refine ⟨?_, ?_, ?_, ?_, ?_⟩
  · intro env dep rest hself huri
    rcases hr : depLoop env rest with e | ⟨files, n⟩ <;>
      simp [depLoop, hself, huri, hr, Except.map]
  · intro env dep rest uri hself huri hcl
    simp [depLoop, hself, huri, hcl]
  · intro env dep rest uri repo hself huri hcl hinit
    simp [depLoop, hself, huri, hcl, hinit]
  · intro env dep rest uri repo hself huri hcl hinit hraw
    simp [depLoop, hself, huri, hcl, hinit, hraw]
  · intro env deps hname hsys hdeps hloop
    simp [binaryArtifactsDependencies, hname, hsys, hdeps, hloop]

/-- Witness for C1's amended theorem across the four failure kinds. -/
theorem dep_failure_handling_witness :
    depLoop envURIFail [depNodeA] = (depLoop envURIFail []).map (fun p => (p.1, p.2 + 1)) ∧
    depLoop envClientsFail [depNodeA] = .error () ∧
    depLoop envInitFail [depNodeA] = .error () ∧
    depLoop envRawFail [depNodeA] = .error () ∧
    binaryArtifactsDependencies envInitFail = ⟨CheckBinaryArtifacts, .runtimeError, []⟩ :=
  ⟨dep_failure_handling.1 envURIFail depNodeA [] (by decide) rfl,
   dep_failure_handling.2.1 envClientsFail depNodeA [] "github.com/x/y" (by decide) rfl rfl,
   dep_failure_handling.2.2.1 envInitFail depNodeA [] "github.com/x/y" 0 (by decide) rfl rfl rfl,
   dep_failure_handling.2.2.2.1 envRawFail depNodeA [] "github.com/x/y" 0
     (by decide) rfl rfl rfl rfl,
   dep_failure_handling.2.2.2.2 envInitFail ⟨[depNodeA], [], ""⟩
     (by decide) (by decide) rfl (by decide)⟩

/-- C2 counterexample: with the same primary Fact Source (no binary files, so
the self check scores the maximum 10), enabling dependency traversal over one
dependency carrying one binary artifact returns score 9 — the dependency
findings change the reported score, refuting the separate-reporting claim. -/
theorem dep_findings_change_score_cex :
    (binaryArtifacts envC2).outcome = .score 10 ∧
    (binaryArtifactsDependencies envC2).outcome = .score 9 ∧
    (binaryArtifactsDependencies envC2).outcome ≠ (binaryArtifacts envC2).outcome :=
  ⟨by decide, by decide, by decide⟩

/-- C2 amended: the traversal variant folds the dependencies' raw files into a
single evaluated result — the returned check result is the evaluation of the
findings produced from the concatenated per-dependency files — and it never
consults the primary repository's own raw data (`rawSelf`). -/
theorem dep_findings_folded :
    (∀ (env : CheckEnv) (deps : PackageDependencies) (files : List BinFile) (n : Nat)
       (findings : List Finding),
       env.packageName ≠ "" → env.system ≠ "" →
       env.getPackageDeps = .ok deps →
       depLoop env deps.nodes = .ok (files, n) →
       env.zrun files = .ok findings →
       binaryArtifactsDependencies env = ⟨CheckBinaryArtifacts, env.evaluate findings, findings⟩) ∧
    (∀ (env : CheckEnv) (r : Except Unit (List BinFile)),
       binaryArtifactsDependencies { env with rawSelf := r } =
         binaryArtifactsDependencies env) := by
  constructor
  · intro env deps files n findings hname hsys hdeps hloop hz
    simp [binaryArtifactsDependencies, hname, hsys, hdeps, hloop, hz]
  · intro env r
    obtain ⟨pn, sys, gpd, gu, rc, gc, ir, rd, rs, zr, ev⟩ := env
    have hdl : ∀ nodes, depLoop ⟨pn, sys, gpd, gu, rc, gc, ir, rd, r, zr, ev⟩ nodes =
        depLoop ⟨pn, sys, gpd, gu, rc, gc, ir, rd, rs, zr, ev⟩ nodes := by
      intro nodes
      induction nodes with
      | nil => rfl
      | cons dep rest ih => simp only [depLoop, ih]
    simp only [binaryArtifactsDependencies, hdl]

/-- Witness for C2's amended theorem on `envC2`. -/
theorem dep_findings_folded_witness :
    binaryArtifactsDependencies envC2 =
      ⟨CheckBinaryArtifacts,
        envC2.evaluate [⟨"hasBinaryArtifacts", .negative, "a.jar"⟩],
        [⟨"hasBinaryArtifacts", .negative, "a.jar"⟩]⟩ ∧
    binaryArtifactsDependencies { envC2 with rawSelf := .error () } =
      binaryArtifactsDependencies envC2 :=
  ⟨dep_findings_folded.1 envC2 ⟨[depNodeA], [], ""⟩ ["a.jar"] 0
      [⟨"hasBinaryArtifacts", .negative, "a.jar"⟩]
      (by decide) (by decide) rfl (by decide) (by decide),
   dep_findings_folded.2 envC2 (.error ())⟩

/-- C3: a dependency node whose relation tag is `SELF` is never evaluated: for
every oracle environment, the traversal loop on a node list containing a
SELF-tagged node behaves exactly as on the list with that node removed, so no
source-URI resolution, client call, or probe run happens for it. -/
theorem self_node_skipped (env : CheckEnv) (node : DependencyNode)
    (pre post : List DependencyNode) (h : node.relation = selfLabel) :
    depLoop env (pre ++ node :: post) = depLoop env (pre ++ post) := by
  induction pre with
  | nil => simp [depLoop, h]
  | cons a pre ih =>
    have ih2 : depLoop env (pre.append (node :: post)) = depLoop env (pre.append post) := ih
    simp only [List.cons_append, depLoop, ih2]

/-- Witness for C3: a SELF node between two ordinary dependencies. -/
theorem self_node_skipped_witness :
    (⟨⟨"GO", "me", "v0"⟩, false, "SELF", []⟩ : DependencyNode).relation = selfLabel ∧
    depLoop envC2 ([depNodeA] ++ ⟨⟨"GO", "me", "v0"⟩, false, "SELF", []⟩ :: [depNodeA]) =
      depLoop envC2 ([depNodeA] ++ [depNodeA]) :=
  ⟨rfl, self_node_skipped envC2 ⟨⟨"GO", "me", "v0"⟩, false, "SELF", []⟩ [depNodeA] [depNodeA] rfl⟩

/-- C4 counterexample: with a primary Fact Source whose self check evaluates to
score 10, the traversal variant returns an inconclusive result when the package
coordinate is missing and a runtime-error result when dependency enumeration
fails — in both cases in place of the self-check result, refuting the claim
that the self-check result is produced regardless. -/
theorem traversal_no_self_check_cex :
    (binaryArtifacts envNoName).outcome = .score 10 ∧
    (binaryArtifactsDependencies envNoName).outcome =
      .inconclusive "Couldn't find package name" ∧
    (binaryArtifacts envDepsFail).outcome = .score 10 ∧
    (binaryArtifactsDependencies envDepsFail).outcome = .runtimeError :=
  ⟨by decide, by decide, by decide, by decide⟩

/-- C4 amended: the traversal variant produces no self-check result: an empty
package name or system returns `CreateInconclusiveResult` with reason
"Couldn't find package name", and a `GetPackageDependencies` failure returns
`CreateRuntimeErrorResult`. -/
theorem traversal_degradation :
    (∀ env : CheckEnv, (env.packageName = "" ∨ env.system = "") →
       binaryArtifactsDependencies env =
         ⟨CheckBinaryArtifacts, .inconclusive "Couldn't find package name", []⟩) ∧
    (∀ env : CheckEnv, env.packageName ≠ "" → env.system ≠ "" →
       env.getPackageDeps = .error () →
       binaryArtifactsDependencies env = ⟨CheckBinaryArtifacts, .runtimeError, []⟩) := by
  constructor
  · intro env h
    simp [binaryArtifactsDependencies, h]
  · intro env hname hsys hdeps
    simp [binaryArtifactsDependencies, hname, hsys, hdeps]

/-- Witness for C4's amended theorem on `envNoName` and `envDepsFail`. -/
theorem traversal_degradation_witness :
    binaryArtifactsDependencies envNoName =
      ⟨CheckBinaryArtifacts, .inconclusive "Couldn't find package name", []⟩ ∧
    binaryArtifactsDependencies envDepsFail = ⟨CheckBinaryArtifacts, .runtimeError, []⟩ :=
  ⟨traversal_degradation.1 envNoName (Or.inl rfl),
   traversal_degradation.2 envDepsFail (by decide) (by decide) rfl⟩

end Scorecard
